import Mathlib

/-!
Shallow embedding of `src/BALLS.py` (a bouncing-balls toy for the Tufty 2040).

Modelling conventions:
* Python floats become rationals (`ℚ`); screen dimensions `WIDTH`/`HEIGHT`
  (from `display.get_bounds()`) become integer parameters `W H : ℤ`.
* Python `//` on our nonnegative operands agrees with Lean's `Int` division
  by the positive constant `2`, which is what we use for the midpoint.
* Randomness is made explicit: a `Rand` record carries the raw draws of
  `random.randint(5, 15)`, the two `random.uniform(-4, 4)` calls and the
  index picked by `random.choice(BALL_PENS)`.
* The global mutable list `balls` becomes a `List Ball` threaded through the
  operations; the globals of the input loop (`balls`, `last_press_time`)
  become a `GameState` record.
-/

namespace BALLS

/-- The six palette colors built by `generate_pens` (RGB triples). -/
def BALL_PENS : List (ℕ × ℕ × ℕ) :=
  [(102, 0, 153), (147, 112, 219), (180, 150, 255),
   (255, 0, 255), (75, 0, 130), (85, 40, 115)]

/-- The `Ball` class: position, radius, velocity, pen and damping factor. -/
@[ext]
structure Ball where
  x : ℚ
  y : ℚ
  radius : ℚ
  vx : ℚ
  vy : ℚ
  pen : ℕ × ℕ × ℕ
  dampening : ℚ
deriving Repr, DecidableEq

/-- `Ball.__init__`: the constructor always sets `dampening = 0.95`. -/
def Ball.init (x y radius vx vy : ℚ) (pen : ℕ × ℕ × ℕ) : Ball :=
  { x := x, y := y, radius := radius, vx := vx, vy := vy,
    pen := pen, dampening := 95/100 }

/-- The first two lines of `Ball.update`: `self.x += self.vx; self.y += self.vy`. -/
def integrate (b : Ball) : Ball :=
  { b with x := b.x + b.vx, y := b.y + b.vy }

/-- The left/right wall block of `Ball.update`: on violation multiply `vx`
by `-dampening` and snap `x` to the nearest legal boundary. -/
def xCheck (W : ℤ) (b : Ball) : Ball :=
  if b.x - b.radius < 0 ∨ b.x + b.radius > (W : ℚ) then
    { b with vx := b.vx * (-b.dampening),
             x := if b.x - b.radius < 0 then b.radius else (W : ℚ) - b.radius }
  else b

/-- The top/bottom wall block of `Ball.update`, same shape as `xCheck`. -/
def yCheck (H : ℤ) (b : Ball) : Ball :=
  if b.y - b.radius < 0 ∨ b.y + b.radius > (H : ℚ) then
    { b with vy := b.vy * (-b.dampening),
             y := if b.y - b.radius < 0 then b.radius else (H : ℚ) - b.radius }
  else b

/-- `Ball.update`: integrate, then the x-wall block, then the y-wall block,
in the source's order. -/
def Ball.update (W H : ℤ) (b : Ball) : Ball :=
  yCheck H (xCheck W (integrate b))

/-- The spec's claimed reordering of `Ball.update`: the y-axis boundary check
run before the x-axis one (used only to compare with `Ball.update`). -/
def Ball.updateYX (W H : ℤ) (b : Ball) : Ball :=
  xCheck W (yCheck H (integrate b))

/-- Raw random draws consumed by one `add_ball()` call. -/
structure Rand where
  radius : ℤ
  vxRaw : ℚ
  vyRaw : ℚ
  penIdx : ℕ
deriving Repr, DecidableEq

/-- The velocity post-processing in `add_ball`:
`if abs(v) < 1: v = 1.0 if v >= 0 else -1.0`. -/
def velFloor (v : ℚ) : ℚ :=
  if |v| < 1 then (if v ≥ 0 then 1 else -1) else v

/-- The `Ball` built by `add_ball()` from the raw draws: random radius,
floored random velocity, centered at `(WIDTH // 2, HEIGHT // 2)`,
pen picked from `BALL_PENS`. -/
def newBall (W H : ℤ) (r : Rand) : Ball :=
  Ball.init ((W / 2 : ℤ) : ℚ) ((H / 2 : ℤ) : ℚ) (r.radius : ℚ)
    (velFloor r.vxRaw) (velFloor r.vyRaw) (BALL_PENS.getD r.penIdx (0, 0, 0))

/-- `add_ball()`: appends the newly built ball to the list. -/
def add_ball (W H : ℤ) (r : Rand) (balls : List Ball) : List Ball :=
  balls ++ [newBall W H r]

/-- `remove_ball()`: `if balls: balls.pop()` — drop the last element,
no-op when the list is empty. -/
def remove_ball (balls : List Ball) : List Ball :=
  if balls.isEmpty then balls else balls.dropLast

/-- `remove_all_balls()`: `balls = []`. -/
def remove_all_balls : List Ball := []

/-- `add_multiple_balls(count)`: `count` calls to `add_ball()` in order;
the list of raw draws supplies one `Rand` per call, so `rs.length = count`. -/
def add_multiple_balls (W H : ℤ) (rs : List Rand) (balls : List Ball) :
    List Ball :=
  rs.foldl (fun bs r => add_ball W H r bs) balls

/-- `DEBOUNCE_TIME = 0.2` seconds. -/
def DEBOUNCE_TIME : ℚ := 2/10

/-- The mutable globals read and written by the input-handling block of
`run_game`: the ball list and `last_press_time`. -/
structure GameState where
  balls : List Ball
  last_press_time : ℚ
deriving Repr, DecidableEq

/-- The input-handling block of `run_game` (lines 146–158): the debounce
gate `current_time - last_press_time > DEBOUNCE_TIME`, then the four
buttons polled in the order up / down / left / right; the winning branch
runs its command and resets `last_press_time` to `current_time`.
`r` feeds a possible `add_ball()`, `rs` a possible `add_multiple_balls(100)`. -/
def handleInput (W H : ℤ) (current_time : ℚ) (up down left right : Bool)
    (r : Rand) (rs : List Rand) (s : GameState) : GameState :=
  if current_time - s.last_press_time > DEBOUNCE_TIME then
    if up then
      { balls := add_ball W H r s.balls, last_press_time := current_time }
    else if down then
      { balls := remove_ball s.balls, last_press_time := current_time }
    else if left then
      { balls := remove_all_balls, last_press_time := current_time }
    else if right then
      { balls := add_multiple_balls W H rs s.balls,
        last_press_time := current_time }
    else s
  else s

/-- The four debounced commands of the controller loop. -/
inductive Command where
  | addOne
  | removeOne
  | clearAll
  | addHundred
deriving Repr, DecidableEq

/-- First-active-wins selection among the four button signals, in the fixed
priority order add-one > remove-one > clear-all > add-hundred. -/
def selectCommand (up down left right : Bool) : Option Command :=
  if up then some Command.addOne
  else if down then some Command.removeOne
  else if left then some Command.clearAll
  else if right then some Command.addHundred
  else none

/-- The simulation operation each command runs. -/
def applyCommand (W H : ℤ) (r : Rand) (rs : List Rand) :
    Command → List Ball → List Ball
  | Command.addOne, bs => add_ball W H r bs
  | Command.removeOne, bs => remove_ball bs
  | Command.clearAll, _ => remove_all_balls
  | Command.addHundred, bs => add_multiple_balls W H rs bs

/-- `remove_ball` lifted to the full mutable state: the function touches
only the global `balls`. -/
def removeBallState (s : GameState) : GameState :=
  { s with balls := remove_ball s.balls }

/-! ### Helper lemmas -/

lemma integrate_x (b : Ball) : (integrate b).x = b.x + b.vx := rfl

lemma integrate_y (b : Ball) : (integrate b).y = b.y + b.vy := rfl

lemma integrate_radius (b : Ball) : (integrate b).radius = b.radius := rfl

lemma integrate_vx (b : Ball) : (integrate b).vx = b.vx := rfl

lemma integrate_vy (b : Ball) : (integrate b).vy = b.vy := rfl

lemma integrate_dampening (b : Ball) : (integrate b).dampening = b.dampening :=
  rfl

lemma integrate_pen (b : Ball) : (integrate b).pen = b.pen := rfl

lemma xCheck_radius (W : ℤ) (b : Ball) : (xCheck W b).radius = b.radius := by
  unfold xCheck; split <;> rfl

lemma xCheck_y (W : ℤ) (b : Ball) : (xCheck W b).y = b.y := by
  unfold xCheck; split <;> rfl

lemma xCheck_vy (W : ℤ) (b : Ball) : (xCheck W b).vy = b.vy := by
  unfold xCheck; split <;> rfl

lemma xCheck_pen (W : ℤ) (b : Ball) : (xCheck W b).pen = b.pen := by
  unfold xCheck; split <;> rfl

lemma xCheck_dampening (W : ℤ) (b : Ball) :
    (xCheck W b).dampening = b.dampening := by
  unfold xCheck; split <;> rfl

lemma yCheck_radius (H : ℤ) (b : Ball) : (yCheck H b).radius = b.radius := by
  unfold yCheck; split <;> rfl

lemma yCheck_x (H : ℤ) (b : Ball) : (yCheck H b).x = b.x := by
  unfold yCheck; split <;> rfl

lemma yCheck_vx (H : ℤ) (b : Ball) : (yCheck H b).vx = b.vx := by
  unfold yCheck; split <;> rfl

lemma yCheck_pen (H : ℤ) (b : Ball) : (yCheck H b).pen = b.pen := by
  unfold yCheck; split <;> rfl

lemma yCheck_dampening (H : ℤ) (b : Ball) :
    (yCheck H b).dampening = b.dampening := by
  unfold yCheck; split <;> rfl

lemma update_radius (W H : ℤ) (b : Ball) :
    (Ball.update W H b).radius = b.radius := by
  unfold Ball.update; rw [yCheck_radius, xCheck_radius, integrate_radius]

lemma update_pen (W H : ℤ) (b : Ball) : (Ball.update W H b).pen = b.pen := by
  unfold Ball.update; rw [yCheck_pen, xCheck_pen, integrate_pen]

lemma update_dampening (W H : ℤ) (b : Ball) :
    (Ball.update W H b).dampening = b.dampening := by
  unfold Ball.update; rw [yCheck_dampening, xCheck_dampening,
    integrate_dampening]

lemma xCheck_x (W : ℤ) (b : Ball) :
    (xCheck W b).x =
      if b.x - b.radius < 0 ∨ b.x + b.radius > (W : ℚ) then
        (if b.x - b.radius < 0 then b.radius else (W : ℚ) - b.radius)
      else b.x := by
  unfold xCheck; split_ifs <;> rfl

lemma xCheck_vx (W : ℤ) (b : Ball) :
    (xCheck W b).vx =
      if b.x - b.radius < 0 ∨ b.x + b.radius > (W : ℚ) then
        b.vx * (-b.dampening)
      else b.vx := by
  unfold xCheck; split_ifs <;> rfl

lemma yCheck_y (H : ℤ) (b : Ball) :
    (yCheck H b).y =
      if b.y - b.radius < 0 ∨ b.y + b.radius > (H : ℚ) then
        (if b.y - b.radius < 0 then b.radius else (H : ℚ) - b.radius)
      else b.y := by
  unfold yCheck; split_ifs <;> rfl

lemma yCheck_vy (H : ℤ) (b : Ball) :
    (yCheck H b).vy =
      if b.y - b.radius < 0 ∨ b.y + b.radius > (H : ℚ) then
        b.vy * (-b.dampening)
      else b.vy := by
  unfold yCheck; split_ifs <;> rfl

lemma xCheck_x_bounds (W : ℤ) (b : Ball) (h : 2 * b.radius ≤ (W : ℚ)) :
    b.radius ≤ (xCheck W b).x ∧ (xCheck W b).x ≤ (W : ℚ) - b.radius := by
  rw [xCheck_x]
  split_ifs with hc h1
  · exact ⟨le_refl _, by linarith⟩
  · exact ⟨by linarith, le_refl _⟩
  · push_neg at hc
    exact ⟨by linarith [hc.1], by linarith [hc.2]⟩

lemma yCheck_y_bounds (H : ℤ) (b : Ball) (h : 2 * b.radius ≤ (H : ℚ)) :
    b.radius ≤ (yCheck H b).y ∧ (yCheck H b).y ≤ (H : ℚ) - b.radius := by
  rw [yCheck_y]
  split_ifs with hc h1
  · exact ⟨le_refl _, by linarith⟩
  · exact ⟨by linarith, le_refl _⟩
  · push_neg at hc
    exact ⟨by linarith [hc.1], by linarith [hc.2]⟩

lemma xCheck_yCheck_comm (W H : ℤ) (b : Ball) :
    xCheck W (yCheck H b) = yCheck H (xCheck W b) := by
  ext1 <;>
    simp [xCheck_x, xCheck_vx, yCheck_y, yCheck_vy, xCheck_y, xCheck_vy,
      xCheck_radius, xCheck_pen, xCheck_dampening, yCheck_x, yCheck_vx,
      yCheck_radius, yCheck_pen, yCheck_dampening]

lemma update_vx (W H : ℤ) (b : Ball) :
    (Ball.update W H b).vx =
      if b.x + b.vx - b.radius < 0 ∨ b.x + b.vx + b.radius > (W : ℚ) then
        b.vx * (-b.dampening)
      else b.vx := by
  unfold Ball.update
  rw [yCheck_vx, xCheck_vx, integrate_x, integrate_radius, integrate_vx,
    integrate_dampening]

lemma update_vy (W H : ℤ) (b : Ball) :
    (Ball.update W H b).vy =
      if b.y + b.vy - b.radius < 0 ∨ b.y + b.vy + b.radius > (H : ℚ) then
        b.vy * (-b.dampening)
      else b.vy := by
  unfold Ball.update
  rw [yCheck_vy, xCheck_y, xCheck_radius, xCheck_vy, xCheck_dampening,
    integrate_y, integrate_radius, integrate_vy, integrate_dampening]

lemma update_vx_abs_le (W H : ℤ) (b : Ball) (hd : b.dampening = 95/100) :
    |(Ball.update W H b).vx| ≤ |b.vx| := by
  rw [update_vx]
  split_ifs
  · rw [hd, abs_mul, abs_neg, abs_of_nonneg (by norm_num : (0:ℚ) ≤ 95/100)]
    nlinarith [abs_nonneg b.vx]
  · exact le_refl _

lemma update_vy_abs_le (W H : ℤ) (b : Ball) (hd : b.dampening = 95/100) :
    |(Ball.update W H b).vy| ≤ |b.vy| := by
  rw [update_vy]
  split_ifs
  · rw [hd, abs_mul, abs_neg, abs_of_nonneg (by norm_num : (0:ℚ) ≤ 95/100)]
    nlinarith [abs_nonneg b.vy]
  · exact le_refl _

lemma update_x_bounds (W H : ℤ) (b : Ball)
    (hW : 2 * b.radius ≤ (W : ℚ)) :
    b.radius ≤ (Ball.update W H b).x ∧
      (Ball.update W H b).x ≤ (W : ℚ) - b.radius := by
  unfold Ball.update
  have h := xCheck_x_bounds W (integrate b) (by rw [integrate_radius]; exact hW)
  rw [integrate_radius] at h
  rw [yCheck_x]
  exact h

lemma update_y_bounds (W H : ℤ) (b : Ball)
    (hH : 2 * b.radius ≤ (H : ℚ)) :
    b.radius ≤ (Ball.update W H b).y ∧
      (Ball.update W H b).y ≤ (H : ℚ) - b.radius := by
  unfold Ball.update
  have h := yCheck_y_bounds H (xCheck W (integrate b))
    (by rw [xCheck_radius, integrate_radius]; exact hH)
  rw [xCheck_radius, integrate_radius] at h
  exact h

lemma iterate_update_radius (W H : ℤ) (n : ℕ) (b : Ball) :
    ((Ball.update W H)^[n] b).radius = b.radius := by
  induction n with
  | zero => rfl
  | succ n ih => rw [Function.iterate_succ_apply', update_radius, ih]

lemma iterate_update_dampening (W H : ℤ) (n : ℕ) (b : Ball) :
    ((Ball.update W H)^[n] b).dampening = b.dampening := by
  induction n with
  | zero => rfl
  | succ n ih => rw [Function.iterate_succ_apply', update_dampening, ih]

lemma int_midpoint_bounds (W rad : ℤ) (h : 2 * rad ≤ W) :
    (rad : ℚ) ≤ ((W / 2 : ℤ) : ℚ) ∧ ((W / 2 : ℤ) : ℚ) ≤ (W : ℚ) - rad := by
  constructor
  · exact_mod_cast (by omega : rad ≤ W / 2)
  · have h2 : W / 2 ≤ W - rad := by omega
    have h3 : ((W / 2 : ℤ) : ℚ) ≤ ((W - rad : ℤ) : ℚ) := by exact_mod_cast h2
    push_cast at h3
    linarith

lemma newBall_radius (W H : ℤ) (r : Rand) :
    (newBall W H r).radius = (r.radius : ℚ) := rfl

lemma newBall_x (W H : ℤ) (r : Rand) :
    (newBall W H r).x = ((W / 2 : ℤ) : ℚ) := rfl

lemma newBall_y (W H : ℤ) (r : Rand) :
    (newBall W H r).y = ((H / 2 : ℤ) : ℚ) := rfl

lemma newBall_dampening (W H : ℤ) (r : Rand) :
    (newBall W H r).dampening = 95/100 := rfl

/-! ### Claim theorems -/

/-- C7: performing the update step with the y-axis boundary check before the
x-axis boundary check yields exactly the same resulting state as the
implemented x-before-y order, for every ball, corner bounces included. -/
theorem update_axis_order_irrelevant (W H : ℤ) (b : Ball) :
    Ball.update W H b = Ball.updateYX W H b := by
  unfold Ball.update Ball.updateYX
  exact (xCheck_yCheck_comm W H (integrate b)).symm

/-- C9: `Ball.update` changes only position and velocity — radius, pen and
damping factor are preserved — and `add_ball`, `remove_ball`,
`remove_all_balls` never alter an existing ball: `add_ball` appends to the
unchanged list, `remove_ball` keeps an unchanged prefix of the list, and
`remove_all_balls` is the empty list. -/
theorem operations_frame (W H : ℤ) :
    (∀ b : Ball, (Ball.update W H b).radius = b.radius ∧
      (Ball.update W H b).pen = b.pen ∧
      (Ball.update W H b).dampening = b.dampening) ∧
    (∀ (r : Rand) (bs : List Ball), add_ball W H r bs = bs ++ [newBall W H r]) ∧
    (∀ bs : List Ball, remove_ball bs = bs.take (bs.length - 1)) ∧
    remove_all_balls = ([] : List Ball) := by
  refine ⟨fun b => ⟨update_radius W H b, update_pen W H b,
    update_dampening W H b⟩, fun r bs => rfl, fun bs => ?_, rfl⟩
  cases bs with
  | nil => rfl
  | cons a l => simp [remove_ball, List.dropLast_eq_take]

/-- C2: a ball with `vx < 0` whose update step takes it across the left
boundary (`x + vx - radius < 0`) ends the update with `x` exactly `radius`
and `vx` exactly `-(0.95 * vx)`, which is positive with magnitude
`0.95 * |vx|`. -/
theorem left_wall_bounce (W H : ℤ) (b : Ball)
    (hd : b.dampening = 95/100) (hv : b.vx < 0)
    (hcross : b.x + b.vx - b.radius < 0) :
    (Ball.update W H b).x = b.radius ∧
    (Ball.update W H b).vx = -(95/100 * b.vx) ∧
    0 < (Ball.update W H b).vx ∧
    |(Ball.update W H b).vx| = 95/100 * |b.vx| := by
  have hcond : (integrate b).x - (integrate b).radius < 0 := by
    rw [integrate_x, integrate_radius]; linarith
  have hx : (Ball.update W H b).x = b.radius := by
    unfold Ball.update
    rw [yCheck_x]
    unfold xCheck
    rw [if_pos (Or.inl hcond), if_pos hcond]
    exact integrate_radius b
  have hvx : (Ball.update W H b).vx = -(95/100 * b.vx) := by
    unfold Ball.update
    rw [yCheck_vx]
    unfold xCheck
    rw [if_pos (Or.inl hcond)]
    show (integrate b).vx * -(integrate b).dampening = -(95/100 * b.vx)
    rw [integrate_vx, integrate_dampening, hd]; ring
  refine ⟨hx, hvx, ?_, ?_⟩
  · rw [hvx]; nlinarith
  · rw [hvx, abs_neg, abs_mul, abs_of_nonneg (by norm_num : (0:ℚ) ≤ 95/100)]

/-- C8: `remove_ball` on an empty ball list is a total no-op on the whole
mutable state: the list stays empty and `last_press_time` is untouched. -/
theorem remove_ball_empty_noop (s : GameState) (h : s.balls = []) :
    removeBallState s = s := by
  have hb : remove_ball s.balls = s.balls := by rw [h]; rfl
  unfold removeBallState
  rw [hb]

/-- Witness for C8 at the concrete state with no balls and timestamp 0. -/
theorem remove_ball_empty_noop_witness :
    removeBallState ⟨[], 0⟩ = ⟨[], 0⟩ :=
  remove_ball_empty_noop ⟨[], 0⟩ rfl

/-- Witness for C2: a concrete ball at `x = 2` with `vx = -3`, radius 5 on a
320×240 screen crosses the left wall in one tick. -/
theorem left_wall_bounce_witness :
    (Ball.update 320 240 (Ball.init 2 50 5 (-3) 1 (0, 0, 0))).x =
      (Ball.init 2 50 5 (-3) 1 (0, 0, 0)).radius ∧
    (Ball.update 320 240 (Ball.init 2 50 5 (-3) 1 (0, 0, 0))).vx =
      -(95/100 * (Ball.init 2 50 5 (-3) 1 (0, 0, 0)).vx) ∧
    0 < (Ball.update 320 240 (Ball.init 2 50 5 (-3) 1 (0, 0, 0))).vx ∧
    |(Ball.update 320 240 (Ball.init 2 50 5 (-3) 1 (0, 0, 0))).vx| =
      95/100 * |(Ball.init 2 50 5 (-3) 1 (0, 0, 0)).vx| :=
  left_wall_bounce 320 240 (Ball.init 2 50 5 (-3) 1 (0, 0, 0))
    rfl (by norm_num [Ball.init]) (by norm_num [Ball.init])

/-- C1: for a ball created by `add_ball` whose diameter fits the screen
(`2 * radius ≤ WIDTH` and `2 * radius ≤ HEIGHT`), after any number of
`update` calls the position lies within `[radius - 0.0001,
dimension - radius + 0.0001]` on each axis: each update either stays in
bounds or clamps back onto the boundary. -/
theorem update_position_invariant (W H : ℤ) (r : Rand) (n : ℕ)
    (hW : 2 * r.radius ≤ W) (hH : 2 * r.radius ≤ H) :
    (r.radius : ℚ) - 1/10000 ≤ ((Ball.update W H)^[n] (newBall W H r)).x ∧
    ((Ball.update W H)^[n] (newBall W H r)).x ≤ (W : ℚ) - r.radius + 1/10000 ∧
    (r.radius : ℚ) - 1/10000 ≤ ((Ball.update W H)^[n] (newBall W H r)).y ∧
    ((Ball.update W H)^[n] (newBall W H r)).y ≤ (H : ℚ) - r.radius + 1/10000 := by
  have hWq : 2 * (r.radius : ℚ) ≤ (W : ℚ) := by exact_mod_cast hW
  have hHq : 2 * (r.radius : ℚ) ≤ (H : ℚ) := by exact_mod_cast hH
  cases n with
  | zero =>
      simp only [Function.iterate_zero, id_eq, newBall_x, newBall_y]
      have hx := int_midpoint_bounds W r.radius hW
      have hy := int_midpoint_bounds H r.radius hH
      exact ⟨by linarith [hx.1], by linarith [hx.2], by linarith [hy.1],
        by linarith [hy.2]⟩
  | succ n =>
      rw [Function.iterate_succ_apply']
      have hrad : ((Ball.update W H)^[n] (newBall W H r)).radius =
          (r.radius : ℚ) := by
        rw [iterate_update_radius, newBall_radius]
      have hx := update_x_bounds W H ((Ball.update W H)^[n] (newBall W H r))
        (by rw [hrad]; exact hWq)
      have hy := update_y_bounds W H ((Ball.update W H)^[n] (newBall W H r))
        (by rw [hrad]; exact hHq)
      rw [hrad] at hx hy
      exact ⟨by linarith [hx.1], by linarith [hx.2], by linarith [hy.1],
        by linarith [hy.2]⟩

/-- Witness for C1: a radius-10 ball on a 320×240 screen, three updates. -/
theorem update_position_invariant_witness :
    ((10 : ℤ) : ℚ) - 1/10000 ≤
      ((Ball.update 320 240)^[3] (newBall 320 240 ⟨10, 3, -2, 0⟩)).x ∧
    ((Ball.update 320 240)^[3] (newBall 320 240 ⟨10, 3, -2, 0⟩)).x ≤
      ((320 : ℤ) : ℚ) - (10 : ℤ) + 1/10000 ∧
    ((10 : ℤ) : ℚ) - 1/10000 ≤
      ((Ball.update 320 240)^[3] (newBall 320 240 ⟨10, 3, -2, 0⟩)).y ∧
    ((Ball.update 320 240)^[3] (newBall 320 240 ⟨10, 3, -2, 0⟩)).y ≤
      ((240 : ℤ) : ℚ) - (10 : ℤ) + 1/10000 :=
  update_position_invariant 320 240 ⟨10, 3, -2, 0⟩ 3 (by decide) (by decide)

/-- C10: one `update` never increases a per-axis speed: on an axis whose
boundary test fires the speed is multiplied by exactly 0.95, otherwise the
velocity component is unchanged; hence iterated updates give monotonically
non-increasing per-axis speeds. -/
theorem update_speed_decay (W H : ℤ) (b : Ball) (hd : b.dampening = 95/100) :
    ((b.x + b.vx - b.radius < 0 ∨ b.x + b.vx + b.radius > (W : ℚ)) →
      |(Ball.update W H b).vx| = 95/100 * |b.vx|) ∧
    (¬(b.x + b.vx - b.radius < 0 ∨ b.x + b.vx + b.radius > (W : ℚ)) →
      (Ball.update W H b).vx = b.vx) ∧
    ((b.y + b.vy - b.radius < 0 ∨ b.y + b.vy + b.radius > (H : ℚ)) →
      |(Ball.update W H b).vy| = 95/100 * |b.vy|) ∧
    (¬(b.y + b.vy - b.radius < 0 ∨ b.y + b.vy + b.radius > (H : ℚ)) →
      (Ball.update W H b).vy = b.vy) ∧
    (∀ n : ℕ, |((Ball.update W H)^[n + 1] b).vx| ≤
        |((Ball.update W H)^[n] b).vx| ∧
      |((Ball.update W H)^[n + 1] b).vy| ≤ |((Ball.update W H)^[n] b).vy|) := by
  refine ⟨?_, ?_, ?_, ?_, ?_⟩
  · intro hc
    rw [update_vx, if_pos hc, hd, abs_mul, abs_neg,
      abs_of_nonneg (by norm_num : (0:ℚ) ≤ 95/100)]
    ring
  · intro hc
    rw [update_vx, if_neg hc]
  · intro hc
    rw [update_vy, if_pos hc, hd, abs_mul, abs_neg,
      abs_of_nonneg (by norm_num : (0:ℚ) ≤ 95/100)]
    ring
  · intro hc
    rw [update_vy, if_neg hc]
  · intro n
    have hdn : ((Ball.update W H)^[n] b).dampening = 95/100 := by
      rw [iterate_update_dampening, hd]
    rw [Function.iterate_succ_apply']
    exact ⟨update_vx_abs_le W H _ hdn, update_vy_abs_le W H _ hdn⟩

/-- Witness for C10 at a concrete ball that hits the left wall. -/
theorem update_speed_decay_witness :
    |(Ball.update 320 240 (Ball.init 2 50 5 (-3) 2 (0, 0, 0))).vx| =
      95/100 * |(Ball.init 2 50 5 (-3) 2 (0, 0, 0)).vx| ∧
    (Ball.update 320 240 (Ball.init 2 50 5 (-3) 2 (0, 0, 0))).vy =
      (Ball.init 2 50 5 (-3) 2 (0, 0, 0)).vy :=
  ⟨(update_speed_decay 320 240 (Ball.init 2 50 5 (-3) 2 (0, 0, 0)) rfl).1
      (by norm_num [Ball.init]),
    (update_speed_decay 320 240 (Ball.init 2 50 5 (-3) 2 (0, 0, 0)) rfl).2.2.2.1
      (by norm_num [Ball.init])⟩

/-- C5: `add_multiple_balls` appends one ball per supplied draw, in order;
`remove_ball` removes exactly the most recently appended ball; iterating
`remove_ball` once per added ball empties the list. -/
theorem add_remove_stack (W H : ℤ) :
    (∀ (rs : List Rand) (bs : List Ball),
      add_multiple_balls W H rs bs = bs ++ rs.map (newBall W H)) ∧
    (∀ rs : List Rand, (add_multiple_balls W H rs []).length = rs.length) ∧
    (∀ (bs : List Ball) (b : Ball), remove_ball (bs ++ [b]) = bs) ∧
    (∀ rs : List Rand,
      remove_ball^[rs.length] (add_multiple_balls W H rs []) = []) := by
  have happ : ∀ (rs : List Rand) (bs : List Ball),
      add_multiple_balls W H rs bs = bs ++ rs.map (newBall W H) := by
    intro rs
    induction rs with
    | nil => intro bs; simp [add_multiple_balls]
    | cons r rs ih =>
        intro bs
        show add_multiple_balls W H rs (add_ball W H r bs) =
          bs ++ (newBall W H r :: rs.map (newBall W H))
        rw [ih, add_ball]
        simp
  have hpop : ∀ (bs : List Ball) (b : Ball), remove_ball (bs ++ [b]) = bs := by
    intro bs b
    unfold remove_ball
    rw [if_neg (by simp), List.dropLast_concat]
  have hiter : ∀ (n : ℕ) (l : List Ball), l.length = n →
      remove_ball^[n] l = [] := by
    intro n
    induction n with
    | zero =>
        intro l hl
        rw [List.length_eq_zero] at hl
        simp [hl]
    | succ n ih =>
        intro l hl
        rw [Function.iterate_succ_apply]
        apply ih
        cases l with
        | nil => simp at hl
        | cons a t =>
            unfold remove_ball
            rw [if_neg (by simp), List.length_dropLast]
            simp only [List.length_cons] at hl ⊢
            omega
  refine ⟨happ, fun rs => by rw [happ]; simp, hpop, fun rs => ?_⟩
  apply hiter
  rw [happ]
  simp

lemma velFloor_bounds (v : ℚ) (h : |v| ≤ 4) :
    1 ≤ |velFloor v| ∧ |velFloor v| ≤ 4 ∧ velFloor v ≠ 0 := by
  unfold velFloor
  split_ifs with h1 h2
  · norm_num
  · norm_num
  · push_neg at h1
    refine ⟨h1, h, ?_⟩
    intro h0
    rw [h0] at h1
    norm_num at h1

/-- C6: the ball built by `add_ball` from in-range raw draws
(`randint(5, 15)`, two `uniform(-4, 4)` values, a palette index) has an
integer radius in `[5, 15]`, per-axis speed in `[1, 4]` and never zero,
position at the screen midpoint, and a pen from the six-color palette. -/
theorem newBall_creation_properties (W H : ℤ) (r : Rand)
    (hr1 : 5 ≤ r.radius) (hr2 : r.radius ≤ 15)
    (hvx : |r.vxRaw| ≤ 4) (hvy : |r.vyRaw| ≤ 4) (hpen : r.penIdx < 6) :
    (5 ≤ (newBall W H r).radius ∧ (newBall W H r).radius ≤ 15) ∧
    (newBall W H r).radius = (r.radius : ℚ) ∧
    (1 ≤ |(newBall W H r).vx| ∧ |(newBall W H r).vx| ≤ 4 ∧
      (newBall W H r).vx ≠ 0) ∧
    (1 ≤ |(newBall W H r).vy| ∧ |(newBall W H r).vy| ≤ 4 ∧
      (newBall W H r).vy ≠ 0) ∧
    (newBall W H r).x = ((W / 2 : ℤ) : ℚ) ∧
    (newBall W H r).y = ((H / 2 : ℤ) : ℚ) ∧
    (newBall W H r).pen ∈ BALL_PENS := by
  have hvx' : (newBall W H r).vx = velFloor r.vxRaw := rfl
  have hvy' : (newBall W H r).vy = velFloor r.vyRaw := rfl
  have hpen6 : r.penIdx = 0 ∨ r.penIdx = 1 ∨ r.penIdx = 2 ∨ r.penIdx = 3 ∨
      r.penIdx = 4 ∨ r.penIdx = 5 := by omega
  have hp : (newBall W H r).pen = BALL_PENS.getD r.penIdx (0, 0, 0) := rfl
  refine ⟨⟨?_, ?_⟩, newBall_radius W H r, ?_, ?_, newBall_x W H r,
    newBall_y W H r, ?_⟩
  · rw [newBall_radius]; exact_mod_cast hr1
  · rw [newBall_radius]; exact_mod_cast hr2
  · rw [hvx']; exact velFloor_bounds r.vxRaw hvx
  · rw [hvy']; exact velFloor_bounds r.vyRaw hvy
  · rcases hpen6 with h | h | h | h | h | h <;> rw [hp, h] <;> decide

/-- Witness for C6 at the concrete draws radius 10, raw velocities 1/2 and
-3, palette index 2. -/
theorem newBall_creation_properties_witness :
    (5 ≤ (newBall 320 240 ⟨10, 1/2, -3, 2⟩).radius ∧
      (newBall 320 240 ⟨10, 1/2, -3, 2⟩).radius ≤ 15) ∧
    (newBall 320 240 ⟨10, 1/2, -3, 2⟩).radius = ((10 : ℤ) : ℚ) ∧
    (1 ≤ |(newBall 320 240 ⟨10, 1/2, -3, 2⟩).vx| ∧
      |(newBall 320 240 ⟨10, 1/2, -3, 2⟩).vx| ≤ 4 ∧
      (newBall 320 240 ⟨10, 1/2, -3, 2⟩).vx ≠ 0) ∧
    (1 ≤ |(newBall 320 240 ⟨10, 1/2, -3, 2⟩).vy| ∧
      |(newBall 320 240 ⟨10, 1/2, -3, 2⟩).vy| ≤ 4 ∧
      (newBall 320 240 ⟨10, 1/2, -3, 2⟩).vy ≠ 0) ∧
    (newBall 320 240 ⟨10, 1/2, -3, 2⟩).x = (((320 : ℤ) / 2 : ℤ) : ℚ) ∧
    (newBall 320 240 ⟨10, 1/2, -3, 2⟩).y = (((240 : ℤ) / 2 : ℤ) : ℚ) ∧
    (newBall 320 240 ⟨10, 1/2, -3, 2⟩).pen ∈ BALL_PENS :=
  newBall_creation_properties 320 240 ⟨10, 1/2, -3, 2⟩ (by decide) (by decide)
    (by norm_num [abs_le]) (by norm_num [abs_le]) (by decide)

/-- C3 counterexample: with `last_press_time = 0` and `current_time = 1/5`
the elapsed time equals the 0.2 s window, so the claim says the pressed
add-one button must run and reset the timestamp; the code's strict
`elapsed > DEBOUNCE_TIME` gate fails and the state is untouched. -/
theorem debounce_boundary_counterexample :
    (1/5 : ℚ) - (0 : ℚ) ≥ DEBOUNCE_TIME ∧
    handleInput 320 240 (1/5) true false false false ⟨10, 2, 2, 0⟩ []
        ⟨[], 0⟩ = ⟨[], 0⟩ ∧
    (handleInput 320 240 (1/5) true false false false ⟨10, 2, 2, 0⟩ []
        ⟨[], 0⟩).balls.length ≠ 1 ∧
    (handleInput 320 240 (1/5) true false false false ⟨10, 2, 2, 0⟩ []
        ⟨[], 0⟩).last_press_time ≠ 1/5 := by
  have h : handleInput 320 240 (1/5) true false false false ⟨10, 2, 2, 0⟩ []
      ⟨[], 0⟩ = ⟨[], 0⟩ := by
    unfold handleInput
    norm_num [DEBOUNCE_TIME]
  refine ⟨by norm_num [DEBOUNCE_TIME], h, ?_, ?_⟩ <;> rw [h] <;> norm_num

/-- C3 (amended): a command can execute if and only if the elapsed time
since the last accepted command strictly exceeds the 0.2 s window: when
elapsed > 0.2 s a pressed button's command runs and resets the timestamp,
and when elapsed ≤ 0.2 s (the exact boundary included) the whole state is
untouched, so a second command issued 0.2 s or less after an accepted one
is silently dropped. -/
theorem debounce_gate (W H : ℤ) (c : ℚ) (u d l r : Bool) (rand : Rand)
    (rs : List Rand) (s : GameState) :
    (c - s.last_press_time ≤ DEBOUNCE_TIME →
      handleInput W H c u d l r rand rs s = s) ∧
    (c - s.last_press_time > DEBOUNCE_TIME → (u || d || l || r) = true →
      (handleInput W H c u d l r rand rs s).last_press_time = c) ∧
    (c - s.last_press_time > DEBOUNCE_TIME → (u || d || l || r) = false →
      handleInput W H c u d l r rand rs s = s) := by
  refine ⟨?_, ?_, ?_⟩
  · intro hle
    unfold handleInput
    rw [if_neg (not_lt.mpr hle)]
  · intro hgt hb
    cases u <;> cases d <;> cases l <;> cases r <;>
      simp_all [handleInput]
  · intro hgt hb
    cases u <;> cases d <;> cases l <;> cases r <;>
      simp_all [handleInput]

/-- Witness for C3 (amended): elapsed 1 s > 0.2 s, add-one pressed, the
timestamp is reset; and elapsed 0.1 s ≤ 0.2 s leaves the state untouched. -/
theorem debounce_gate_witness :
    (handleInput 320 240 1 true false false false ⟨10, 2, 2, 0⟩ []
      ⟨[], 0⟩).last_press_time = 1 ∧
    handleInput 320 240 (1/10) true false false false ⟨10, 2, 2, 0⟩ []
      ⟨[], 0⟩ = ⟨[], 0⟩ :=
  ⟨(debounce_gate 320 240 1 true false false false ⟨10, 2, 2, 0⟩ []
      ⟨[], 0⟩).2.1 (by norm_num [DEBOUNCE_TIME]) rfl,
    (debounce_gate 320 240 (1/10) true false false false ⟨10, 2, 2, 0⟩ []
      ⟨[], 0⟩).1 (by norm_num [DEBOUNCE_TIME])⟩

/-- C4: in a tick whose debounce gate passes, the state change is exactly
the application of the first active signal's command, in the priority
order add-one > remove-one > clear-all > add-hundred (no signal: no
change); lower-priority active signals are ignored. -/
theorem input_priority (W H : ℤ) (c : ℚ) (u d l r : Bool) (rand : Rand)
    (rs : List Rand) (s : GameState)
    (hgate : c - s.last_press_time > DEBOUNCE_TIME) :
    handleInput W H c u d l r rand rs s =
      (match selectCommand u d l r with
       | none => s
       | some cmd =>
           { balls := applyCommand W H rand rs cmd s.balls,
             last_press_time := c }) ∧
    selectCommand true d l r = some Command.addOne ∧
    selectCommand false true l r = some Command.removeOne ∧
    selectCommand false false true r = some Command.clearAll ∧
    selectCommand false false false true = some Command.addHundred ∧
    selectCommand false false false false = none := by
  refine ⟨?_, rfl, rfl, rfl, rfl, rfl⟩
  cases u <;> cases d <;> cases l <;> cases r <;>
    simp [handleInput, selectCommand, applyCommand, hgate]

/-- Witness for C4: add-one and remove-one held together with a passed
gate — only add-one runs. -/
theorem input_priority_witness :
    handleInput 320 240 1 true true false false ⟨10, 2, 2, 0⟩ [] ⟨[], 0⟩ =
      { balls := add_ball 320 240 ⟨10, 2, 2, 0⟩ [], last_press_time := 1 } ∧
    selectCommand true true false false = some Command.addOne :=
  ⟨(input_priority 320 240 1 true true false false ⟨10, 2, 2, 0⟩ [] ⟨[], 0⟩
      (by norm_num [DEBOUNCE_TIME])).1, rfl⟩

end BALLS
